import Mathlib

/-!
Shallow embedding of the environment-reconciliation engine of
src/wayland-session.py (Universal Wayland Desktop Session Manager):
the snapshot differ, the reconciliation performed by prepare_env
(lines 1401-1454), the cleanup ledger, cleanup_env (lines 1497-1553),
the aux prepare-env CLI handler (lines 1907-1917) and finalize
(lines 1170-1225).

Python dicts are modelled as association lists with dict-update
semantics; Python sets of variable names as Finset String.  Python
string primitives (strip, split, startswith) are re-implemented over
the character list of the string so that every definition reduces in
the kernel.
-/

namespace WaylandSession

/-! ### Models of the Python string primitives used by the engine -/

/-- Python str.strip(): drop leading and trailing whitespace. -/
def strip (s : String) : String :=
  ⟨((s.data.dropWhile Char.isWhitespace).reverse.dropWhile Char.isWhitespace).reverse⟩

/-- Helper for splitChar: accumulates the current segment (reversed). -/
def splitCharAux (c : Char) : List Char → List Char → List String
  | [], acc => [⟨acc.reverse⟩]
  | x :: xs, acc =>
    if x == c then ⟨acc.reverse⟩ :: splitCharAux c xs []
    else splitCharAux c xs (x :: acc)

/-- Python s.split(c): split on every occurrence of the character c. -/
def splitChar (s : String) (c : Char) : List String :=
  splitCharAux c s.data []

/-- Helper for splitOnceChar. -/
def splitOnceAux (c : Char) : List Char → List Char → Option (String × String)
  | [], _ => none
  | x :: xs, acc =>
    if x == c then some (⟨acc.reverse⟩, ⟨xs⟩)
    else splitOnceAux c xs (x :: acc)

/-- Python s.split(c, maxsplit=1): none when c does not occur,
otherwise the parts before and after its first occurrence. -/
def splitOnceChar (s : String) (c : Char) : Option (String × String) :=
  splitOnceAux c s.data []

/-- Python s.rstrip(c): drop trailing occurrences of the character c. -/
def rstripChar (s : String) (c : Char) : String :=
  ⟨(s.data.reverse.dropWhile (· == c)).reverse⟩

/-- Boolean check that one character list is a prefix of another. -/
def listIsPre : List Char → List Char → Bool
  | [], _ => true
  | _ :: _, [] => false
  | a :: as, b :: bs => a == b && listIsPre as bs

/-- Python s.startswith(pat). -/
def strBeginsWith (s pat : String) : Bool :=
  listIsPre pat.data s.data

/-- Codepoint-wise lexicographic less-or-equal on character lists. -/
def lexLeB : List Char → List Char → Bool
  | [], _ => true
  | _ :: _, [] => false
  | a :: as, b :: bs => if a == b then lexLeB as bs else Nat.blt a.toNat b.toNat

/-- Python string comparison (codepoint lexicographic). -/
def strLeB (a b : String) : Bool :=
  lexLeB a.data b.data

/-- Insert a string into a list keeping it sorted by strLeB. -/
def insertStr (x : String) : List String → List String
  | [] => [x]
  | y :: ys => if strLeB x y then x :: y :: ys else y :: insertStr x ys

/-- Python sorted() on a list of strings (insertion sort; the source
only ever uses the result as a set, so stability is irrelevant). -/
def sortStrs (l : List String) : List String :=
  l.foldr insertStr []

/-! ### Policy Tables (src/wayland-session.py lines 17-55, class varnames) -/

namespace varnames

def always_export : Finset String :=
  {"XDG_SESSION_ID", "XDG_VTNR", "XDG_CURRENT_DESKTOP",
   "XDG_SESSION_DESKTOP", "XDG_MENU_PREFIX", "PATH"}

def never_export : Finset String :=
  {"PWD", "LS_COLORS", "INVOCATION_ID", "SHLVL", "SHELL"}

def always_unset : Finset String :=
  {"DISPLAY", "WAYLAND_DISPLAY"}

def always_cleanup : Finset String :=
  {"DISPLAY", "WAYLAND_DISPLAY", "XDG_SESSION_ID", "XDG_VTNR",
   "XDG_CURRENT_DESKTOP", "XDG_SESSION_DESKTOP", "XDG_MENU_PREFIX",
   "PATH", "XCURSOR_THEME", "XCURSOR_SIZE", "LANG"}

def never_cleanup : Finset String :=
  {"SSH_AGENT_LAUNCHER", "SSH_AUTH_SOCK", "SSH_AGENT_PID"}

end varnames

/-! ### Environment dictionaries (Python dict of name to value) -/

/-- An environment snapshot / dict: association list of name-value
pairs; lookup returns the first binding, updates replace in place. -/
abbrev EnvDict := List (String × String)

/-- Python d[k] / d.get(k): value of the first binding of k. -/
def getVar : EnvDict → String → Option String
  | [], _ => none
  | (k', v) :: rest, k => if k' = k then some v else getVar rest k

/-- Python d.update({k: v}) on a dict: replace the binding of k in
place if present, else append it. -/
def dictInsert : EnvDict → String → String → EnvDict
  | [], k, v => [(k, v)]
  | (k', v') :: rest, k, v =>
    if k' = k then (k, v) :: rest else (k', v') :: dictInsert rest k v

/-- Python d.pop(k) on a dict: drop the binding of k. -/
def dictPop : EnvDict → String → EnvDict
  | [], _ => []
  | (k', v') :: rest, k =>
    if k' = k then dictPop rest k else (k', v') :: dictPop rest k

/-- Python set(d.keys()). -/
def envKeys (d : EnvDict) : Finset String :=
  (d.map Prod.fst).toFinset

/-- The dict invariant: no key is bound twice. -/
def nodupKeys (d : EnvDict) : Prop :=
  (d.map Prod.fst).Nodup

/-! ### prepare_env reconciliation (src/wayland-session.py lines 1401-1454) -/

/-- Line 1391: stdout after the mark is rstripped of the last NUL;
lines 1401-1408: split on NUL, each entry split once on '=' to a
name-value pair; entries with no '=' only produce an error message
and are skipped (not fatal). -/
def parse_env_post (stdout : String) : EnvDict :=
  (splitChar (rstripChar stdout '\x00') '\x00').foldl
    (fun env_post entry =>
      match splitOnceChar entry '=' with
      | some (name, value) => dictInsert env_post name value
      | none => env_post)
    []

/-- Line 1415: set_env = dict(set(env_post.items()) - set(env_pre.items())):
the entries of env_post that are not (as pairs) entries of env_pre. -/
def set_env_diff (env_pre env_post : EnvDict) : EnvDict :=
  env_post.filter (fun kv => decide (kv ∉ env_pre))

/-- The list sorted(varnames.always_export - varnames.never_export -
varnames.always_unset) iterated on line 1422; spelled out since the
three policy sets are constants (checked by forced_export_names_spec). -/
def forced_export_names : List String :=
  ["PATH", "XDG_CURRENT_DESKTOP", "XDG_MENU_PREFIX",
   "XDG_SESSION_DESKTOP", "XDG_SESSION_ID", "XDG_VTNR"]

/-- The set varnames.never_export | varnames.always_unset iterated on
line 1428, as a list (iteration order of a Python set is irrelevant
here; checked by excluded_export_names_spec). -/
def excluded_export_names : List String :=
  ["PWD", "LS_COLORS", "INVOCATION_ID", "SHLVL", "SHELL",
   "DISPLAY", "WAYLAND_DISPLAY"]

/-- Lines 1421-1425: force the current env_post value of every
always_export name (minus the excluded ones) into set_env. -/
def force_always_export (env_post d : EnvDict) : EnvDict :=
  forced_export_names.foldl
    (fun acc var =>
      match getVar env_post var with
      | some v => dictInsert acc var v
      | none => acc)
    d

/-- Lines 1427-1431: pop every never_export / always_unset name. -/
def remove_excluded (d : EnvDict) : EnvDict :=
  excluded_export_names.foldl (fun acc var => dictPop acc var) d

/-- Lines 1413-1431: the final set_env dict handed to
"systemctl --user import-environment". -/
def prepare_set_env (env_pre env_post : EnvDict) : EnvDict :=
  remove_excluded (force_always_export env_post (set_env_diff env_pre env_post))

/-- Lines 1433-1439: names to unset from the systemd user manager. -/
def unset_varnames (env_pre env_post : EnvDict)
    (systemd_varnames : Finset String) : Finset String :=
  let removed := envKeys env_pre \ envKeys env_post
  let withAlwaysUnset := removed ∪ varnames.always_unset
  withAlwaysUnset ∩ systemd_varnames

/-- Line 1442: cleanup_varnames = set(set_env.keys()) |
varnames.always_cleanup - varnames.never_cleanup.  Python gives the
binary minus higher precedence than the union, so this is
keys ∪ (always_cleanup − never_cleanup). -/
def cleanup_varnames (set_env : EnvDict) : Finset String :=
  envKeys set_env ∪ (varnames.always_cleanup \ varnames.never_cleanup)

/-- Lines 1391-1442 of prepare_env, from the captured post-mark shell
stdout to the three reconciliation results (set_env, unset_varnames,
cleanup_varnames).  A non-zero shell return code raises (line 1398);
the marker check of line 1383 happens before this stage. -/
def prepare_env_reconcile (env_pre : EnvDict) (stdout_after_mark : String)
    (shell_returncode : Int) (systemd_varnames : Finset String) :
    Except String (EnvDict × Finset String × Finset String) :=
  if shell_returncode ≠ 0 then
    Except.error "Shell returned nonzero"
  else
    let env_post := parse_env_post stdout_after_mark
    let se := prepare_set_env env_pre env_post
    Except.ok (se, unset_varnames env_pre env_post systemd_varnames,
               cleanup_varnames se)

/-- True on the ok branch; prepare_env raised no exception there. -/
def reconcileOk : Except String (EnvDict × Finset String × Finset String) → Bool
  | Except.ok _ => true
  | Except.error _ => false

/-! ### Cleanup ledger (lines 1444-1454, 1182-1191, 1497-1553) -/

/-- Reading a ledger file (lines 1448-1449): the set of stripped,
non-blank lines. -/
def ledger_lines (lines : List String) : Finset String :=
  ((lines.map strip).filter (fun l => l != "")).toFinset

/-- Loading a possibly missing ledger file (lines 1447-1451): a
missing file reads as the empty set. -/
def ledgerRead : Option (List String) → Finset String
  | some lines => ledger_lines lines
  | none => ∅

/-- Writing a set of names as the full file content,
'\n'.join(sorted(names)) read back as lines (lines 1453-1454). -/
def ledgerWrite (names : Finset String) : List String :=
  names.sort (· ≤ ·)

/-- Lines 1444-1454: union the existing ledger content (empty if the
file is absent) with the new names and overwrite the file. -/
def merge_and_save (file : Option (List String)) (names : Finset String) :
    List String :=
  ledgerWrite (ledgerRead file ∪ names)

/-! ### cleanup_env (src/wayland-session.py lines 1497-1553) -/

/-- The runtime directory: file names paired with their lines. -/
abbrev RuntimeDir := List (String × List String)

/-- The fixed name pattern of ledger files (lines 1446, 1509). -/
def cleanup_name_head : String := "env_names_for_cleanup_"

/-- The ledger file name for one session / window-manager id. -/
def ledger_file_name (wm_id : String) : String :=
  cleanup_name_head ++ wm_id

/-- Lines 1507-1514: the files of the runtime dir whose name starts
with "env_names_for_cleanup_". -/
def cleanup_files (dir : RuntimeDir) : RuntimeDir :=
  dir.filter (fun f => strBeginsWith f.1 cleanup_name_head)

/-- Lines 1520-1524: union of the parsed contents of every matching
ledger file. -/
def consumed_names (dir : RuntimeDir) : Finset String :=
  (cleanup_files dir).foldl (fun acc f => acc ∪ ledger_lines f.2) ∅

/-- Observable outcome of one cleanup_env invocation.  earlyExit is
the code of a sys.exit performed inside cleanup_env itself (line 1518);
raised is the exception of lines 1548-1549 ("systemctl --user
unset-environment" returned non-zero) propagating out of cleanup_env;
unsetNames is the computed cleanup set the code hands to the D-Bus
nullification and to unset-environment (the commands are skipped when
it is empty, line 1530); dirAfter is the runtime dir after the
os.remove loop of lines 1551-1553 (unchanged when cleanup_env exited
or raised before reaching it). -/
structure CleanupResult where
  earlyExit : Option Nat
  warnedNoFiles : Bool
  raised : Bool
  unsetNames : Finset String
  dirAfter : RuntimeDir
deriving DecidableEq

/-- cleanup_env, lines 1506-1553.  With no matching ledger file it
prints a warning and calls sys.exit(0) (lines 1516-1518).  Otherwise
it computes (line 1528, with Python precedence: minus binds tighter
than the set operators, intersection tighter than union)
current ∪ ((always_cleanup − never_cleanup) ∩ systemd_varnames); when
that set is non-empty it runs the two removal commands — a failing
dbus-update-activation-environment only prints an error (lines
1540-1541), but a failing "systemctl --user unset-environment" raises
(lines 1548-1549), skipping the file-removal loop.  unset_ok is
whether that systemctl command returns zero.  Only when no exception
is raised does the loop of lines 1551-1553 delete every matching
ledger file. -/
def cleanup_env (dir : RuntimeDir) (systemd_varnames : Finset String)
    (unset_ok : Bool) : CleanupResult :=
  if (cleanup_files dir).isEmpty then
    { earlyExit := some 0, warnedNoFiles := true, raised := false,
      unsetNames := ∅, dirAfter := dir }
  else
    let cvars := consumed_names dir ∪
      ((varnames.always_cleanup \ varnames.never_cleanup) ∩ systemd_varnames)
    if cvars ≠ ∅ ∧ unset_ok = false then
      { earlyExit := none, warnedNoFiles := false, raised := true,
        unsetNames := cvars, dirAfter := dir }
    else
      { earlyExit := none, warnedNoFiles := false, raised := false,
        unsetNames := cvars,
        dirAfter := dir.filter (fun f => !(strBeginsWith f.1 cleanup_name_head)) }

/-- The aux prepare-env handler, lines 1907-1917: on success exit 0;
on any exception from prepare_env, print the error, run cleanup_env,
then sys.exit(1).  A sys.exit raised inside cleanup_env terminates the
process first with that code, because SystemExit is not an Exception;
an exception raised inside cleanup_env (lines 1548-1549) escapes the
except block uncaught, which also terminates the process with code 1,
the same code the handler's own sys.exit(1) would give. -/
def aux_prepare_env_exit_code (prepare_ok : Bool) (dir : RuntimeDir)
    (systemd_varnames : Finset String) (unset_ok : Bool) : Nat :=
  if prepare_ok then 0
  else
    match (cleanup_env dir systemd_varnames unset_ok).earlyExit with
    | some code => code
    | none => 1

/-! ### finalize (src/wayland-session.py lines 1170-1225) -/

/-- Observable outcome of finalize.  earlyExit: a sys.exit before
anything was exported to the supervisor; exportFailed: the ledger was
written and export was attempted but a supervisor command failed;
finalized: full success up to exec of systemd-notify. -/
inductive FinalizeResult where
  | earlyExit (code : Nat)
  | exportFailed (code : Nat) (exportVars : List String)
      (ledgerAfter : List String)
  | finalized (exportVars : List String) (ledgerAfter : List String)
deriving DecidableEq

/-- Lines 1175-1178: the vars to export, in order: WAYLAND_DISPLAY,
DISPLAY, then sorted(additional_vars), keeping those present in the
environment (even with empty value) and dropping duplicates. -/
def compute_export_vars (env : EnvDict) (additional_vars : List String) :
    List String :=
  (["WAYLAND_DISPLAY", "DISPLAY"] ++ sortStrs additional_vars).foldl
    (fun export_vars var =>
      if (getVar env var).isSome && !(export_vars.contains var) then
        export_vars ++ [var]
      else export_vars)
    []

/-- finalize, lines 1170-1225.  env is the process environment, ledger
the per-session cleanup file of the active window manager (none when
absent), dbus_ok / systemctl_ok whether the two export commands return
zero.  Exits 1 before exporting anything when WAYLAND_DISPLAY is unset
or empty (lines 1172-1174) or when the ledger file does not exist
(lines 1184-1189, "Assuming env preloader failed"). -/
def finalize (env : EnvDict) (additional_vars : List String)
    (ledger : Option (List String)) (dbus_ok systemctl_ok : Bool) :
    FinalizeResult :=
  if (getVar env "WAYLAND_DISPLAY").getD "" = "" then
    FinalizeResult.earlyExit 1
  else
    let export_vars := compute_export_vars env additional_vars
    match ledger with
    | none => FinalizeResult.earlyExit 1
    | some lines =>
      let ledgerAfter := ledgerWrite (ledger_lines lines ∪ export_vars.toFinset)
      if !dbus_ok then FinalizeResult.exportFailed 1 export_vars ledgerAfter
      else if !systemctl_ok then
        FinalizeResult.exportFailed 1 export_vars ledgerAfter
      else FinalizeResult.finalized export_vars ledgerAfter

/-! ### Lemmas: the two iteration lists enumerate the policy sets -/

/-- forced_export_names is exactly always_export − never_export −
always_unset (as a set). -/
theorem forced_export_names_spec :
    forced_export_names.toFinset =
      (varnames.always_export \ varnames.never_export) \ varnames.always_unset := by
  decide

/-- excluded_export_names is exactly never_export ∪ always_unset. -/
theorem excluded_export_names_spec :
    excluded_export_names.toFinset =
      varnames.never_export ∪ varnames.always_unset := by
  decide

theorem mem_forced_export_names {q : String} :
    q ∈ forced_export_names ↔
      q ∈ (varnames.always_export \ varnames.never_export) \ varnames.always_unset := by
  rw [← forced_export_names_spec, List.mem_toFinset]

theorem mem_excluded_export_names {q : String} :
    q ∈ excluded_export_names ↔
      q ∈ varnames.never_export ∪ varnames.always_unset := by
  rw [← excluded_export_names_spec, List.mem_toFinset]

/-! ### Lemmas: getVar over the dict operations -/

theorem getVar_dictInsert (d : EnvDict) (k v q : String) :
    getVar (dictInsert d k v) q = if k = q then some v else getVar d q := by
  induction d with
  | nil => simp [dictInsert, getVar]
  | cons kv rest ih =>
    obtain ⟨k', v'⟩ := kv
    by_cases hk : k' = k
    · subst hk
      simp only [dictInsert, if_pos rfl]
      by_cases hq : k' = q <;> simp [getVar, hq]
    · simp only [dictInsert, if_neg hk, getVar]
      by_cases hq : k' = q
      · subst hq
        have hne : ¬k = k' := fun h => hk h.symm
        simp [hne]
      · simp [hq, ih]

theorem getVar_dictPop (d : EnvDict) (k q : String) :
    getVar (dictPop d k) q = if k = q then none else getVar d q := by
  induction d with
  | nil => simp [dictPop, getVar]
  | cons kv rest ih =>
    obtain ⟨k', v'⟩ := kv
    by_cases hk : k' = k
    · subst hk
      simp only [dictPop, if_pos rfl]
      by_cases hq : k' = q
      · subst hq; simp [ih]
      · simp [getVar, hq, ih]
    · simp only [dictPop, if_neg hk, getVar]
      by_cases hq : k' = q
      · subst hq
        have hne : ¬k = k' := fun h => hk h.symm
        simp [hne]
      · simp [hq, ih]

theorem getVar_pop_foldl (L : List String) (d : EnvDict) (q : String) :
    getVar (L.foldl (fun acc var => dictPop acc var) d) q =
      if q ∈ L then none else getVar d q := by
  induction L generalizing d with
  | nil => simp
  | cons a L ih =>
    simp only [List.foldl_cons, ih, getVar_dictPop, List.mem_cons]
    by_cases hL : q ∈ L
    · simp [hL]
    · by_cases ha : q = a
      · simp [ha, hL]
      · have hne : ¬a = q := fun h => ha h.symm
        simp [hL, ha, hne]

theorem getVar_force_foldl (L : List String) (env_post d : EnvDict) (q : String) :
    getVar (L.foldl
        (fun acc var =>
          match getVar env_post var with
          | some v => dictInsert acc var v
          | none => acc) d) q =
      if q ∈ L ∧ (getVar env_post q).isSome then getVar env_post q
      else getVar d q := by
  induction L generalizing d with
  | nil => simp
  | cons a L ih =>
    simp only [List.foldl_cons, ih, List.mem_cons]
    by_cases ha : q = a
    · subst ha
      cases hpost : getVar env_post q with
      | none => simp [hpost]
      | some v => simp [hpost, getVar_dictInsert]
    · have han : ¬a = q := fun h => ha h.symm
      cases hpost : getVar env_post a with
      | none => simp [hpost, ha]
      | some v => simp [hpost, ha, getVar_dictInsert, han]

/-! ### Master lemmas: getVar over prepare_set_env -/

/-- Exclusion always wins: any never_export / always_unset name is
absent from the final set_env. -/
theorem getVar_prepare_set_env_excluded (env_pre env_post : EnvDict)
    {q : String} (hq : q ∈ varnames.never_export ∪ varnames.always_unset) :
    getVar (prepare_set_env env_pre env_post) q = none := by
  unfold prepare_set_env remove_excluded
  rw [getVar_pop_foldl, if_pos (mem_excluded_export_names.mpr hq)]

/-- Forced export: a non-excluded always_export name present in
env_post ends up in set_env with its env_post value. -/
theorem getVar_prepare_set_env_forced (env_pre env_post : EnvDict)
    {q v : String}
    (hq : q ∈ (varnames.always_export \ varnames.never_export) \ varnames.always_unset)
    (hv : getVar env_post q = some v) :
    getVar (prepare_set_env env_pre env_post) q = some v := by
  have hex : q ∉ excluded_export_names := by
    rw [mem_excluded_export_names]
    simp only [Finset.mem_sdiff] at hq
    simp [Finset.mem_union, hq.1.2, hq.2]
  unfold prepare_set_env remove_excluded
  rw [getVar_pop_foldl, if_neg hex]
  unfold force_always_export
  rw [getVar_force_foldl,
    if_pos ⟨mem_forced_export_names.mpr hq, by simp [hv]⟩, hv]

/-- Names touched by neither rule keep their diff value. -/
theorem getVar_prepare_set_env_plain (env_pre env_post : EnvDict)
    {q : String}
    (hex : q ∉ varnames.never_export ∪ varnames.always_unset)
    (hfo : q ∉ (varnames.always_export \ varnames.never_export) \ varnames.always_unset
            ∨ getVar env_post q = none) :
    getVar (prepare_set_env env_pre env_post) q =
      getVar (set_env_diff env_pre env_post) q := by
  have hex' : q ∉ excluded_export_names := fun h =>
    hex (mem_excluded_export_names.mp h)
  unfold prepare_set_env remove_excluded
  rw [getVar_pop_foldl, if_neg hex']
  unfold force_always_export
  rw [getVar_force_foldl, if_neg]
  intro h
  rcases hfo with hfo | hfo
  · exact hfo (mem_forced_export_names.mp h.1)
  · rw [hfo] at h
    simp at h

/-! ### Lemmas: keys, membership and the snapshot diff -/

theorem mem_envKeys {d : EnvDict} {k : String} :
    k ∈ envKeys d ↔ ∃ v, (k, v) ∈ d := by
  simp only [envKeys, List.mem_toFinset, List.mem_map]
  constructor
  · rintro ⟨⟨a, b⟩, hab, rfl⟩
    exact ⟨b, hab⟩
  · rintro ⟨v, hv⟩
    exact ⟨(k, v), hv, rfl⟩

theorem getVar_eq_none_iff {d : EnvDict} {k : String} :
    getVar d k = none ↔ k ∉ envKeys d := by
  induction d with
  | nil => simp [getVar, envKeys]
  | cons kv rest ih =>
    obtain ⟨k', v'⟩ := kv
    simp only [envKeys, List.map_cons, List.toFinset_cons, Finset.mem_insert] at ih ⊢
    by_cases hq : k' = k
    · subst hq
      simp [getVar]
    · simp only [getVar, if_neg hq, ih]
      constructor
      · intro h hmem
        rcases hmem with h1 | h2
        · exact hq h1.symm
        · exact h h2
      · intro h h2
        exact h (Or.inr h2)

theorem getVar_isSome_iff {d : EnvDict} {k : String} :
    (getVar d k).isSome = true ↔ k ∈ envKeys d := by
  cases h : getVar d k with
  | none =>
    simp only [Option.isSome_none, Bool.false_eq_true, false_iff]
    exact getVar_eq_none_iff.mp h
  | some v =>
    simp only [Option.isSome_some, true_iff]
    by_contra hk
    rw [getVar_eq_none_iff.mpr hk] at h
    exact Option.noConfusion h

theorem mem_iff_getVar {d : EnvDict} (h : nodupKeys d) {k v : String} :
    (k, v) ∈ d ↔ getVar d k = some v := by
  induction d with
  | nil => simp [getVar]
  | cons kv rest ih =>
    obtain ⟨k', v'⟩ := kv
    have h2 : (k' :: List.map Prod.fst rest).Nodup := h
    have hcons := List.nodup_cons.mp h2
    have h' : nodupKeys rest := hcons.2
    have hk' : k' ∉ rest.map Prod.fst := hcons.1
    by_cases hq : k' = k
    · subst hq
      have hget : getVar ((k', v') :: rest) k' = some v' := by
        simp [getVar]
      rw [hget, List.mem_cons]
      constructor
      · rintro (heq | hmem)
        · rw [Prod.mk.injEq] at heq
          rw [heq.2]
        · exact absurd (by simpa using List.mem_map_of_mem Prod.fst hmem) hk'
      · intro hv
        injection hv with hv'
        exact Or.inl (by rw [hv'])
    · simp only [getVar, if_neg hq, List.mem_cons, ih h']
      constructor
      · rintro (heq | hmem)
        · rw [Prod.mk.injEq] at heq
          exact absurd heq.1.symm hq
        · exact hmem
      · exact Or.inr

theorem getVar_filter (p : String × String → Bool) {d : EnvDict}
    (h : nodupKeys d) (k v : String) :
    getVar (d.filter p) k = some v ↔ getVar d k = some v ∧ p (k, v) = true := by
  have hf : nodupKeys (d.filter p) := by
    have hsub : List.Sublist ((d.filter p).map Prod.fst) (d.map Prod.fst) :=
      List.Sublist.map Prod.fst (List.filter_sublist d)
    exact List.Nodup.sublist hsub h
  rw [← mem_iff_getVar hf, List.mem_filter, mem_iff_getVar h]

/-- The raw item-set difference of line 1415, characterised by lookups:
an entry survives iff env_post binds it and env_pre does not bind the
key to the same value. -/
theorem getVar_set_env_diff {env_pre env_post : EnvDict}
    (hpre : nodupKeys env_pre) (hpost : nodupKeys env_post) (k v : String) :
    getVar (set_env_diff env_pre env_post) k = some v ↔
      getVar env_post k = some v ∧ ¬getVar env_pre k = some v := by
  unfold set_env_diff
  rw [getVar_filter _ hpost]
  simp [mem_iff_getVar hpre]

/-! ### Lemmas: cleanup ledger round trips -/

/-- A written ledger file parses back to exactly the written set,
provided every name is strip-invariant and non-blank (variable names
are). -/
theorem ledgerRead_ledgerWrite (S : Finset String)
    (hS : ∀ n ∈ S, strip n = n ∧ n ≠ "") :
    ledgerRead (some (ledgerWrite S)) = S := by
  show ((((S.sort (· ≤ ·)).map strip).filter (fun l => l != "")).toFinset : Finset String) = S
  have h1 : (S.sort (· ≤ ·)).map strip = (S.sort (· ≤ ·)).map id :=
    List.map_congr_left fun a ha => (hS a ((Finset.mem_sort (· ≤ ·)).mp ha)).1
  rw [h1, List.map_id]
  have h2 : (S.sort (· ≤ ·)).filter (fun l => l != "") = S.sort (· ≤ ·) := by
    rw [List.filter_eq_self]
    intro a ha
    simpa using (hS a ((Finset.mem_sort (· ≤ ·)).mp ha)).2
  rw [h2, Finset.sort_toFinset]

/-- merge_and_save then load yields exactly old-content ∪ new-names. -/
theorem merge_roundtrip (file : Option (List String)) (A : Finset String)
    (hfile : ∀ n ∈ ledgerRead file, strip n = n ∧ n ≠ "")
    (hA : ∀ n ∈ A, strip n = n ∧ n ≠ "") :
    ledgerRead (some (merge_and_save file A)) = ledgerRead file ∪ A := by
  unfold merge_and_save
  refine ledgerRead_ledgerWrite _ ?_
  intro n hn
  rcases Finset.mem_union.mp hn with h | h
  · exact hfile n h
  · exact hA n h

/-- Prefix test against an appended string always succeeds. -/
theorem listIsPre_append (l m : List Char) : listIsPre l (l ++ m) = true := by
  induction l with
  | nil => rfl
  | cons a l ih => simp [listIsPre, ih]

/-- Every per-session ledger file name matches the cleanup pattern. -/
theorem ledger_file_name_matches (wm : String) :
    strBeginsWith (ledger_file_name wm) cleanup_name_head = true := by
  unfold strBeginsWith ledger_file_name
  rw [String.data_append]
  exact listIsPre_append _ _

/-- Filtering out all pattern matches leaves no cleanup file behind. -/
theorem cleanup_files_filter_out (l : RuntimeDir) :
    cleanup_files (l.filter (fun f => !(strBeginsWith f.1 cleanup_name_head))) = [] := by
  induction l with
  | nil => rfl
  | cons a l ih =>
    cases hp : strBeginsWith a.1 cleanup_name_head with
    | true =>
      simp only [List.filter_cons, hp, Bool.not_true]
      simp only [Bool.false_eq_true, if_false]
      exact ih
    | false =>
      unfold cleanup_files at ih ⊢
      simp [List.filter_cons, hp, ih]

/-! ### Claim C1 -/

/-- C1, counterexample.  The claim states that the cleanup set of
prepare_env equals (to_export.keys ∪ always_cleanup) − never_cleanup,
so that a never_cleanup name is never in it.  On the code (line 1442,
Python precedence), SSH_AUTH_SOCK ∈ never_cleanup lands in the cleanup
set as soon as it is a key of set_env, e.g. for
pre = {} and post = {SSH_AUTH_SOCK: /run/agent}: it is in the computed
set but not in the set the claim predicts. -/
theorem c1_counterexample :
    "SSH_AUTH_SOCK" ∈ varnames.never_cleanup ∧
    "SSH_AUTH_SOCK" ∈
      cleanup_varnames (prepare_set_env [] [("SSH_AUTH_SOCK", "/run/agent")]) ∧
    "SSH_AUTH_SOCK" ∉
      ((envKeys (prepare_set_env [] [("SSH_AUTH_SOCK", "/run/agent")]) ∪
          varnames.always_cleanup) \ varnames.never_cleanup) := by
  decide

/-- C1, amended: in every reconciliation the cleanup set written to
the ledger is to_export.keys ∪ (always_cleanup − never_cleanup) — the
minus binds tighter than the union — so a never_cleanup name is
excluded only from the always_cleanup contribution: it is in the
cleanup set exactly when it is a key of to_export. -/
theorem c1_cleanup_amended (env_pre env_post : EnvDict) :
    (∀ k, k ∈ cleanup_varnames (prepare_set_env env_pre env_post) ↔
        k ∈ envKeys (prepare_set_env env_pre env_post) ∨
          (k ∈ varnames.always_cleanup ∧ k ∉ varnames.never_cleanup))
    ∧ (∀ k, k ∈ varnames.never_cleanup →
        (k ∈ cleanup_varnames (prepare_set_env env_pre env_post) ↔
          k ∈ envKeys (prepare_set_env env_pre env_post))) := by
  constructor
  · intro k
    simp [cleanup_varnames, Finset.mem_union, Finset.mem_sdiff]
  · intro k hk
    simp [cleanup_varnames, Finset.mem_union, Finset.mem_sdiff, hk]

/-- C1, witness for the amended claim at a concrete input. -/
theorem c1_amended_witness :
    "SSH_AUTH_SOCK" ∈
        cleanup_varnames (prepare_set_env [] [("SSH_AUTH_SOCK", "/run/agent")]) ↔
      "SSH_AUTH_SOCK" ∈ envKeys (prepare_set_env [] [("SSH_AUTH_SOCK", "/run/agent")]) :=
  (c1_cleanup_amended [] [("SSH_AUTH_SOCK", "/run/agent")]).2
    "SSH_AUTH_SOCK" (by decide)

/-! ### Claim C2 -/

/-- C2, counterexample.  The claim states that with no ledger file
cleanup still proceeds and removes always_cleanup − never_cleanup.  On
the code (lines 1516-1518), cleanup_env prints the warning and calls
sys.exit(0): nothing is unset even though always_cleanup −
never_cleanup is non-empty and held by the supervisor. -/
theorem c2_counterexample :
    (cleanup_env [] varnames.always_cleanup true).earlyExit = some 0 ∧
    (cleanup_env [] varnames.always_cleanup true).unsetNames = ∅ ∧
    varnames.always_cleanup \ varnames.never_cleanup ≠ ∅ := by
  decide

/-- C2, amended: when cleanup runs and no ledger file exists, it
reports a warning and exits successfully (sys.exit(0)) without
removing any variable and without touching the runtime dir; it does
not proceed with the policy-only set. -/
theorem c2_missing_ledger_amended (dir : RuntimeDir) (systemd : Finset String)
    (unset_ok : Bool) (h : cleanup_files dir = []) :
    (cleanup_env dir systemd unset_ok).warnedNoFiles = true ∧
    (cleanup_env dir systemd unset_ok).earlyExit = some 0 ∧
    (cleanup_env dir systemd unset_ok).unsetNames = ∅ ∧
    (cleanup_env dir systemd unset_ok).dirAfter = dir := by
  unfold cleanup_env
  rw [h]
  exact ⟨rfl, rfl, rfl, rfl⟩

/-- C2, witness for the amended claim at a concrete input. -/
theorem c2_amended_witness :
    (cleanup_env [("unrelated_file", ["X"])] ∅ true).warnedNoFiles = true ∧
    (cleanup_env [("unrelated_file", ["X"])] ∅ true).earlyExit = some 0 ∧
    (cleanup_env [("unrelated_file", ["X"])] ∅ true).unsetNames = ∅ ∧
    (cleanup_env [("unrelated_file", ["X"])] ∅ true).dirAfter = [("unrelated_file", ["X"])] :=
  c2_missing_ledger_amended [("unrelated_file", ["X"])] ∅ true (by decide)

/-! ### Claim C3 -/

/-- C3, code bug, evaluated at the failing input.  The claim (and the
spec) demand a non-zero exit code whenever prepare fails.  The handler
(lines 1911-1917) runs cleanup_env before sys.exit(1), but when no
ledger file exists cleanup_env itself calls sys.exit(0) (line 1518),
which is a SystemExit and is not caught by the `except Exception`
clause — so a prepare failure before the ledger was written (e.g. a
missing marker in the shell output on a first run) makes the process
exit 0, contradicting the handler's own sys.exit(1) intent.  (The
early exit happens before any unset command, so the unset-environment
outcome is irrelevant here.) -/
theorem c3_prepare_failure_exits_zero :
    aux_prepare_env_exit_code false [] ∅ true = 0 := by
  decide

/-! ### Claim C4 -/

/-- C4: a name of always_export present in post is exported with its
post value iff it is in neither never_export nor always_unset; and any
name of never_export or always_unset is never exported — exclusion is
applied after forced inclusion and always wins (lines 1421-1431). -/
theorem c4_forced_export_exclusion (env_pre env_post : EnvDict) :
    (∀ name v, name ∈ varnames.always_export → getVar env_post name = some v →
        (getVar (prepare_set_env env_pre env_post) name = some v ↔
          name ∉ varnames.never_export ∧ name ∉ varnames.always_unset))
    ∧ (∀ name, name ∈ varnames.never_export ∨ name ∈ varnames.always_unset →
        getVar (prepare_set_env env_pre env_post) name = none) := by
  constructor
  · intro name v hAE hv
    constructor
    · intro hsome
      by_contra hcon
      have hmem : name ∈ varnames.never_export ∪ varnames.always_unset := by
        rcases not_and_or.mp hcon with h | h
        · exact Finset.mem_union_left _ (not_not.mp h)
        · exact Finset.mem_union_right _ (not_not.mp h)
      rw [getVar_prepare_set_env_excluded env_pre env_post hmem] at hsome
      exact Option.noConfusion hsome
    · rintro ⟨hNE, hAU⟩
      exact getVar_prepare_set_env_forced env_pre env_post
        (by rw [Finset.mem_sdiff, Finset.mem_sdiff]; exact ⟨⟨hAE, hNE⟩, hAU⟩) hv
  · intro name h
    exact getVar_prepare_set_env_excluded env_pre env_post (Finset.mem_union.mpr h)

/-- C4, witness at a concrete input: PATH (always_export, not
excluded) is exported; PWD (never_export) is not. -/
theorem c4_witness :
    (getVar (prepare_set_env [] [("PATH", "/bin"), ("PWD", "/home")]) "PATH" =
        some "/bin" ↔
      "PATH" ∉ varnames.never_export ∧ "PATH" ∉ varnames.always_unset) ∧
    getVar (prepare_set_env [] [("PATH", "/bin"), ("PWD", "/home")]) "PWD" = none :=
  ⟨(c4_forced_export_exclusion [] [("PATH", "/bin"), ("PWD", "/home")]).1
      "PATH" "/bin" (by decide) (by decide),
   (c4_forced_export_exclusion [] [("PATH", "/bin"), ("PWD", "/home")]).2
      "PWD" (Or.inl (by decide))⟩

/-! ### Claim C5 -/

/-- C5: to_unset is exactly (removed_names ∪ always_unset) ∩
known_supervisor_names (lines 1433-1439) and in particular is always a
subset of the names the supervisor holds. -/
theorem c5_unset_restricted_to_known (env_pre env_post : EnvDict)
    (systemd_varnames : Finset String) :
    unset_varnames env_pre env_post systemd_varnames =
        ((envKeys env_pre \ envKeys env_post) ∪ varnames.always_unset) ∩
          systemd_varnames
    ∧ unset_varnames env_pre env_post systemd_varnames ⊆ systemd_varnames :=
  ⟨rfl, Finset.inter_subset_right⟩

/-! ### Claim C6 -/

/-- C6: the diff of line 1415 binds k to v exactly when post binds k
to v and pre either does not bind k or binds it to a different value
(exact string equality); and removed_names (line 1435) are exactly the
keys bound in pre and unbound in post. -/
theorem c6_diff_exact (env_pre env_post : EnvDict)
    (hpre : nodupKeys env_pre) (hpost : nodupKeys env_post) :
    (∀ k v, getVar (set_env_diff env_pre env_post) k = some v ↔
        getVar env_post k = some v ∧
          (getVar env_pre k = none ∨
            ∃ w, getVar env_pre k = some w ∧ w ≠ v))
    ∧ (∀ k, k ∈ envKeys env_pre \ envKeys env_post ↔
        (getVar env_pre k).isSome = true ∧ getVar env_post k = none) := by
  constructor
  · intro k v
    rw [getVar_set_env_diff hpre hpost]
    cases hcase : getVar env_pre k with
    | none => simp [hcase]
    | some w => simp [hcase]
  · intro k
    rw [Finset.mem_sdiff]
    constructor
    · rintro ⟨h1, h2⟩
      exact ⟨getVar_isSome_iff.mpr h1, getVar_eq_none_iff.mpr h2⟩
    · rintro ⟨h1, h2⟩
      exact ⟨getVar_isSome_iff.mp h1, getVar_eq_none_iff.mp h2⟩

/-- C6, witness at a concrete input: B changed value, so the diff
binds it to the post value. -/
theorem c6_witness :
    getVar (set_env_diff [("A", "1"), ("B", "2")]
        [("A", "1"), ("B", "3"), ("C", "4")]) "B" = some "3" ↔
      getVar [("A", "1"), ("B", "3"), ("C", "4")] "B" = some "3" ∧
        (getVar [("A", "1"), ("B", "2")] "B" = none ∨
          ∃ w, getVar [("A", "1"), ("B", "2")] "B" = some w ∧ w ≠ "3") :=
  (c6_diff_exact [("A", "1"), ("B", "2")] [("A", "1"), ("B", "3"), ("C", "4")]
    (by unfold nodupKeys; decide) (by unfold nodupKeys; decide)).1 "B" "3"

/-! ### Claim C7 -/

/-- C7: merge_and_save is a monotone idempotent union: merging A then
B over any starting ledger persists exactly prior ∪ A ∪ B, and merging
the same A twice writes the identical file as merging it once
(well-formedness of the names — strip-invariant and non-blank, as
variable names are — makes the written lines parse back exactly,
so duplicates and blank lines never accumulate). -/
theorem c7_ledger_merge_idempotent (file : Option (List String))
    (A B : Finset String)
    (hfile : ∀ n ∈ ledgerRead file, strip n = n ∧ n ≠ "")
    (hA : ∀ n ∈ A, strip n = n ∧ n ≠ "")
    (hB : ∀ n ∈ B, strip n = n ∧ n ≠ "") :
    ledgerRead (some (merge_and_save (some (merge_and_save file A)) B)) =
        (ledgerRead file ∪ A) ∪ B
    ∧ merge_and_save (some (merge_and_save file A)) A = merge_and_save file A := by
  have h1 : ledgerRead (some (merge_and_save file A)) = ledgerRead file ∪ A :=
    merge_roundtrip file A hfile hA
  have hUA : ∀ n ∈ ledgerRead file ∪ A, strip n = n ∧ n ≠ "" := by
    intro n hn
    rcases Finset.mem_union.mp hn with hn | hn
    · exact hfile n hn
    · exact hA n hn
  constructor
  · rw [merge_roundtrip _ B (by rw [h1]; exact hUA) hB, h1]
  · show ledgerWrite (ledgerRead (some (merge_and_save file A)) ∪ A) =
      merge_and_save file A
    rw [h1, Finset.union_assoc, Finset.union_self]
    rfl

/-- C7, witness at a concrete input. -/
theorem c7_witness :
    ledgerRead (some (merge_and_save (some (merge_and_save (some ["FOO"])
          {"BAR"})) {"BAZ"})) =
        (ledgerRead (some ["FOO"]) ∪ {"BAR"}) ∪ {"BAZ"}
    ∧ merge_and_save (some (merge_and_save (some ["FOO"]) {"BAR"})) {"BAR"} =
        merge_and_save (some ["FOO"]) {"BAR"} :=
  c7_ledger_merge_idempotent (some ["FOO"]) {"BAR"} {"BAZ"}
    (by decide) (by decide) (by decide)

/-! ### Claim C8 -/

/-- C8, counterexample.  The claim states unconditionally that cleanup
deletes every matching ledger file and that a subsequent load finds
the ledger empty.  On the code, when the computed cleanup set is
non-empty and "systemctl --user unset-environment" returns non-zero,
the raise at lines 1548-1549 aborts cleanup_env before the os.remove
loop of lines 1551-1553: with one matching ledger holding FOO and the
unset command failing, the file survives and a subsequent load still
finds FOO. -/
theorem c8_counterexample :
    (cleanup_env [(ledger_file_name "sway", ["FOO"])] ∅ false).raised = true ∧
    (cleanup_env [(ledger_file_name "sway", ["FOO"])] ∅ false).dirAfter =
      [(ledger_file_name "sway", ["FOO"])] ∧
    consumed_names (cleanup_env [(ledger_file_name "sway", ["FOO"])] ∅ false).dirAfter
      ≠ ∅ := by
  decide

/-- C8, amended: when at least one ledger file matches the pattern and
the "systemctl --user unset-environment" command succeeds, cleanup
consumes them all: it neither exits early nor raises, the set handed
to unset-environment contains the union of all matching files' names
(plus the policy contribution of line 1528), every matching file is
deleted, and a subsequent load over the remaining dir finds nothing;
moreover a ledger written by merge_and_save under the pattern-derived
file name is consumed back to exactly the accumulated union.  (When
the unset command fails, the raise of lines 1548-1549 skips the
deletion, as the counterexample shows.) -/
theorem c8_consume_union_delete (dir : RuntimeDir) (systemd : Finset String)
    (wm : String) (file : Option (List String)) (A : Finset String)
    (h : cleanup_files dir ≠ [])
    (hfile : ∀ n ∈ ledgerRead file, strip n = n ∧ n ≠ "")
    (hA : ∀ n ∈ A, strip n = n ∧ n ≠ "") :
    (cleanup_env dir systemd true).earlyExit = none
    ∧ (cleanup_env dir systemd true).raised = false
    ∧ (cleanup_env dir systemd true).unsetNames =
        consumed_names dir ∪
          ((varnames.always_cleanup \ varnames.never_cleanup) ∩ systemd)
    ∧ consumed_names dir ⊆ (cleanup_env dir systemd true).unsetNames
    ∧ cleanup_files (cleanup_env dir systemd true).dirAfter = []
    ∧ consumed_names (cleanup_env dir systemd true).dirAfter = ∅
    ∧ consumed_names [(ledger_file_name wm, merge_and_save file A)] =
        ledgerRead file ∪ A := by
  have hne : (cleanup_files dir).isEmpty = false := by
    cases hc : cleanup_files dir with
    | nil => exact absurd hc h
    | cons a l => rfl
  have hnot : ¬((cleanup_files dir).isEmpty = true) := by simp [hne]
  have hmain : cleanup_env dir systemd true =
      { earlyExit := none, warnedNoFiles := false, raised := false,
        unsetNames := consumed_names dir ∪
          ((varnames.always_cleanup \ varnames.never_cleanup) ∩ systemd),
        dirAfter := dir.filter (fun f => !(strBeginsWith f.1 cleanup_name_head)) } := by
    unfold cleanup_env
    rw [if_neg hnot]
    exact if_neg (fun hc => Bool.noConfusion hc.2)
  rw [hmain]
  refine ⟨rfl, rfl, rfl, Finset.subset_union_left, cleanup_files_filter_out dir, ?_, ?_⟩
  · unfold consumed_names
    rw [cleanup_files_filter_out]
    rfl
  · unfold consumed_names cleanup_files
    simp only [List.filter_cons, ledger_file_name_matches, if_true,
      List.filter_nil, List.foldl_cons, List.foldl_nil]
    rw [Finset.empty_union]
    exact merge_roundtrip file A hfile hA

/-- C8, witness for the amended claim at a concrete input. -/
theorem c8_witness :
    (cleanup_env [(ledger_file_name "sway", ["FOO"])] ∅ true).earlyExit = none
    ∧ (cleanup_env [(ledger_file_name "sway", ["FOO"])] ∅ true).raised = false
    ∧ (cleanup_env [(ledger_file_name "sway", ["FOO"])] ∅ true).unsetNames =
        consumed_names [(ledger_file_name "sway", ["FOO"])] ∪
          ((varnames.always_cleanup \ varnames.never_cleanup) ∩ ∅)
    ∧ consumed_names [(ledger_file_name "sway", ["FOO"])] ⊆
        (cleanup_env [(ledger_file_name "sway", ["FOO"])] ∅ true).unsetNames
    ∧ cleanup_files (cleanup_env [(ledger_file_name "sway", ["FOO"])] ∅ true).dirAfter = []
    ∧ consumed_names (cleanup_env [(ledger_file_name "sway", ["FOO"])] ∅ true).dirAfter = ∅
    ∧ consumed_names [(ledger_file_name "wm1", merge_and_save none {"WAYLAND_DISPLAY"})] =
        ledgerRead none ∪ {"WAYLAND_DISPLAY"} :=
  c8_consume_union_delete [(ledger_file_name "sway", ["FOO"])] ∅ "wm1" none
    {"WAYLAND_DISPLAY"} (by decide) (by decide) (by decide)

/-! ### Claim C9 -/

/-- C9, counterexample.  The claim states that an empty post snapshot
makes prepare fail.  On the code there is no such check: with the
marker found and the shell exiting 0, an empty environment dump parses
to an empty dict (each entry only triggers a printed "No value" error)
and prepare_env proceeds through the reconciliation with an empty
diff instead of raising. -/
theorem c9_counterexample :
    parse_env_post "" = [] ∧
    reconcileOk (prepare_env_reconcile [("PATH", "/bin")] "" 0 {"PATH"}) = true := by
  decide

/-- C9, amended: an empty post snapshot is not an error: prepare
proceeds with an empty export mapping, schedules every pre key known
to the supervisor (plus always_unset ∩ known) for unset, and the
cleanup set degenerates to always_cleanup − never_cleanup. -/
theorem c9_empty_post_proceeds (env_pre : EnvDict) (systemd : Finset String) :
    prepare_env_reconcile env_pre "" 0 systemd =
      Except.ok ([], (envKeys env_pre ∪ varnames.always_unset) ∩ systemd,
        varnames.always_cleanup \ varnames.never_cleanup) := by
  have h0 : ¬((0 : Int) ≠ 0) := fun hc => hc rfl
  unfold prepare_env_reconcile
  rw [if_neg h0]
  show Except.ok (prepare_set_env env_pre [],
      unset_varnames env_pre [] systemd,
      cleanup_varnames (prepare_set_env env_pre [])) = _
  have hse : prepare_set_env env_pre [] = [] := rfl
  rw [hse]
  simp [unset_varnames, cleanup_varnames, envKeys, Finset.sdiff_empty,
    Finset.empty_union]

/-! ### Claim C10 -/

/-- C10: finalize has two hard preconditions, checked before anything
is exported to the supervisor: it exits 1 when WAYLAND_DISPLAY is
unset or empty (lines 1172-1174), and it exits 1 when the per-session
cleanup ledger file does not exist ("Assuming env preloader failed",
lines 1184-1189) — unlike cleanup_env, which treats absence as
benign. -/
theorem c10_finalize_preconditions (env : EnvDict) (additional_vars : List String)
    (ledger : Option (List String)) (dbus_ok systemctl_ok : Bool)
    (h : (getVar env "WAYLAND_DISPLAY").getD "" = "" ∨ ledger = none) :
    finalize env additional_vars ledger dbus_ok systemctl_ok =
      FinalizeResult.earlyExit 1 := by
  unfold finalize
  rcases h with h | h
  · rw [if_pos h]
  · by_cases hw : (getVar env "WAYLAND_DISPLAY").getD "" = ""
    · rw [if_pos hw]
    · subst h
      rw [if_neg hw]

/-- C10, witness at a concrete input: empty environment, so
WAYLAND_DISPLAY is missing. -/
theorem c10_witness :
    finalize [] [] none true true = FinalizeResult.earlyExit 1 :=
  c10_finalize_preconditions [] [] none true true (Or.inl (by decide))

end WaylandSession
